import Mathlib

/-
Verification of the Wingxtra delivery-service core against its specification.

The order state machine, idempotency ledger, rate limiter, dispatch engine and
public-tracking sanitizer live in the backend service; here they are modelled
from the specification (each such definition says so in its doc comment).  The
web UI logic (auth token store, `apiFetch`, event-timeline sorting, tracking
page rate-limit handling) is embedded directly from the TypeScript sources
under `web/src`.
-/

namespace Wingxtra

/-! ## Order state machine (spec §4.1, docs/state-machine.md) -/

/-- Modelled from the spec: order lifecycle states of §4.1 of the spec and
docs/state-machine.md (the backend service module is not in the sources). -/
inductive OrderStatus where
  | CREATED
  | VALIDATED
  | QUEUED
  | ASSIGNED
  | MISSION_SUBMITTED
  | LAUNCHED
  | ENROUTE
  | ARRIVED
  | DELIVERING
  | DELIVERED
  | CANCELED
  | FAILED
  | ABORTED
deriving DecidableEq

/-- Modelled from the spec: terminal states are `DELIVERED, CANCELED, FAILED,
ABORTED`; no transition is valid out of a terminal state. -/
def isTerminal : OrderStatus → Bool
  | .DELIVERED => true
  | .CANCELED => true
  | .FAILED => true
  | .ABORTED => true
  | _ => false

/-- Modelled from the spec: the linear happy-path forward edges
`CREATED→VALIDATED→QUEUED→ASSIGNED→MISSION_SUBMITTED→LAUNCHED→ENROUTE→ARRIVED→DELIVERING→DELIVERED`. -/
def forwardEdge : OrderStatus → OrderStatus → Bool
  | .CREATED, .VALIDATED => true
  | .VALIDATED, .QUEUED => true
  | .QUEUED, .ASSIGNED => true
  | .ASSIGNED, .MISSION_SUBMITTED => true
  | .MISSION_SUBMITTED, .LAUNCHED => true
  | .LAUNCHED, .ENROUTE => true
  | .ENROUTE, .ARRIVED => true
  | .ARRIVED, .DELIVERING => true
  | .DELIVERING, .DELIVERED => true
  | _, _ => false

/-- States from which `FAILED` and `ABORTED` are reachable: `ASSIGNED` through
`DELIVERING` (spec §4.1). -/
def assignedThroughDelivering : OrderStatus → Bool
  | .ASSIGNED => true
  | .MISSION_SUBMITTED => true
  | .LAUNCHED => true
  | .ENROUTE => true
  | .ARRIVED => true
  | .DELIVERING => true
  | _ => false

/-- Modelled from the spec: the allowed edge set of §4.1 — the linear forward
path, `CANCELED` from any non-terminal state, and `FAILED`/`ABORTED` from
`ASSIGNED` through `DELIVERING`. -/
def allowedEdge (s t : OrderStatus) : Bool :=
  forwardEdge s t
    || (t == .CANCELED && !isTerminal s)
    || ((t == .FAILED || t == .ABORTED) && assignedThroughDelivering s)

/-- Order record; only the fields the state machine touches are kept. -/
structure Order where
  status : OrderStatus
deriving DecidableEq

/-- An immutable audit-trail entry; its type is drawn from the same vocabulary
as state transitions. -/
structure DeliveryEvent where
  eventType : OrderStatus
deriving DecidableEq

inductive TransitionError where
  | InvalidTransition
deriving DecidableEq

/-- The mutable state the transition operation acts on: the order plus its
append-only event log. -/
structure MachineState where
  order : Order
  events : List DeliveryEvent
deriving DecidableEq

/-- Modelled from the spec: `transition(order, targetState, actorContext)`
fails with `InvalidTransition` if the edge is not in the allowed set or the
order is already terminal; otherwise atomically updates the order status and
appends exactly one `DeliveryEvent` of the corresponding type. -/
def transition (st : MachineState) (target : OrderStatus) :
    Except TransitionError Unit × MachineState :=
  if isTerminal st.order.status || !allowedEdge st.order.status target then
    (.error .InvalidTransition, st)
  else
    (.ok (), ⟨⟨target⟩, st.events ++ [⟨target⟩]⟩)

/-- Claim C1: `transition` succeeds exactly when the edge from the current
status to the target is in the allowed edge set and the order is not already
terminal; any other attempt fails with `InvalidTransition` and leaves both the
order status and the event count unchanged. -/
theorem C1_transition_guard (st : MachineState) (target : OrderStatus) :
    ((transition st target).1 = .ok () ↔
      (allowedEdge st.order.status target = true ∧ isTerminal st.order.status = false))
    ∧ ((transition st target).1 ≠ .ok () →
        (transition st target).1 = .error .InvalidTransition
          ∧ (transition st target).2.order.status = st.order.status
          ∧ (transition st target).2.events.length = st.events.length) := by
  unfold transition
  by_cases hterm : isTerminal st.order.status
  · simp [hterm]
  · by_cases hedge : allowedEdge st.order.status target
    · simp [hterm, hedge]
    · simp [hterm, hedge]

/-- Witness for C1 at a concrete input: from `CREATED` the edge to `VALIDATED`
is allowed, so the transition succeeds. -/
theorem C1_transition_guard_witness :
    (transition ⟨⟨.CREATED⟩, []⟩ .VALIDATED).1 = .ok () :=
  ((C1_transition_guard ⟨⟨.CREATED⟩, []⟩ .VALIDATED).1).mpr (by decide)

/-! ## Idempotency ledger (spec §4.3, docs/api.md "Idempotency support") -/

/-- Modelled from the spec: an `IdempotencyRecord` is keyed by (route scope,
client-supplied key) and stores a hash of the normalized payload, the resulting
response payload, and an expiry (the backend ledger module is not in the
sources).  The hash is modelled as the normalized payload itself (a perfect
hash). -/
structure IdempotencyRecord where
  scope : String
  key : String
  payloadHash : String
  response : String
  expiresAt : Nat
deriving DecidableEq

abbrev Ledger := List IdempotencyRecord

inductive IdemError where
  | IdempotencyKeyConflict
deriving DecidableEq

/-- The outcome of one `checkOrRecord` call: the response or error, the ledger
afterwards, the domain state afterwards, and whether the underlying mutation
was actually executed by this call. -/
structure IdemOutcome (σ : Type) where
  result : Except IdemError String
  ledger : Ledger
  state : σ
  executed : Bool

/-- A record is live at `now` when `now` has not passed its expiry; expired
records are treated as absent (spec §4.3). -/
def recordLive (now : Nat) (r : IdempotencyRecord) : Bool :=
  now ≤ r.expiresAt

def recordMatches (scope key : String) (r : IdempotencyRecord) : Bool :=
  r.scope == scope && r.key == key

/-- Modelled from the spec: `checkOrRecord(scope, key, payload)` of §4.3.
If no live record exists for (scope, key): execute the underlying mutation and
persist (scope, key, hash(payload), response) with expiry `now + TTL`.  If a
live record exists and the hash matches: return the persisted response
verbatim without re-executing.  If the hash differs: fail with
`IdempotencyKeyConflict` and change nothing.  Expired records are
opportunistically purged on the success paths. -/
def checkOrRecord {σ : Type} (ttl : Nat) (L : Ledger) (scope key payload : String)
    (exec : σ → σ × String) (s : σ) (now : Nat) : IdemOutcome σ :=
  match (L.filter (recordLive now)).find? (recordMatches scope key) with
  | some r =>
    if r.payloadHash == payload then
      ⟨.ok r.response, L.filter (recordLive now), s, false⟩
    else
      ⟨.error .IdempotencyKeyConflict, L, s, false⟩
  | none =>
    ⟨.ok (exec s).2, L.filter (recordLive now) ++ [⟨scope, key, payload, (exec s).2, now + ttl⟩],
      (exec s).1, true⟩

lemma checkOrRecord_fresh {σ : Type} {ttl : Nat} {L : Ledger} {scope key payload : String}
    {exec : σ → σ × String} {s : σ} {now : Nat}
    (hfresh : (L.filter (recordLive now)).find? (recordMatches scope key) = none) :
    checkOrRecord ttl L scope key payload exec s now =
      ⟨.ok (exec s).2,
        L.filter (recordLive now) ++
          [(⟨scope, key, payload, (exec s).2, now + ttl⟩ : IdempotencyRecord)],
        (exec s).1, true⟩ := by
  unfold checkOrRecord
  rw [hfresh]

lemma checkOrRecord_replay {σ : Type} {ttl : Nat} {L : Ledger} {scope key payload : String}
    {exec : σ → σ × String} {s : σ} {now : Nat} {r : IdempotencyRecord}
    (hfind : (L.filter (recordLive now)).find? (recordMatches scope key) = some r)
    (hhash : (r.payloadHash == payload) = true) :
    checkOrRecord ttl L scope key payload exec s now =
      ⟨.ok r.response, L.filter (recordLive now), s, false⟩ := by
  unfold checkOrRecord
  rw [hfind]
  simp [hhash]

lemma checkOrRecord_conflict {σ : Type} {ttl : Nat} {L : Ledger} {scope key payload : String}
    {exec : σ → σ × String} {s : σ} {now : Nat} {r : IdempotencyRecord}
    (hfind : (L.filter (recordLive now)).find? (recordMatches scope key) = some r)
    (hhash : (r.payloadHash == payload) = false) :
    checkOrRecord ttl L scope key payload exec s now =
      ⟨.error .IdempotencyKeyConflict, L, s, false⟩ := by
  unfold checkOrRecord
  rw [hfind]
  simp [hhash]

lemma find?_append_of_none {α : Type} {p : α → Bool} {l₁ l₂ : List α}
    (h : l₁.find? p = none) : (l₁ ++ l₂).find? p = l₂.find? p := by
  induction l₁ with
  | nil => simp
  | cons a l ih =>
    rw [List.find?_eq_none] at h
    have ha : p a = false := by
      have := h a (by simp)
      simpa using this
    have hl : l.find? p = none := by
      rw [List.find?_eq_none]
      intro x hx
      have := h x (by simp [hx])
      simpa using this
    simp [List.find?, ha, ih hl]

lemma find?_filter_none_of_none {α : Type} {p q : α → Bool} {l : List α}
    (h : l.find? p = none) : (l.filter q).find? p = none := by
  rw [List.find?_eq_none] at h ⊢
  intro x hx
  exact h x (List.mem_of_mem_filter hx)

/-- Claim C2: calling `checkOrRecord` twice under the same (scope, key) with an
identical payload — the key fresh at the first call, the second call before the
first record expires — executes the underlying effect exactly once (first call
executed, second call replayed without touching the domain state) and returns
identical responses both times. -/
theorem C2_idempotent_replay {σ : Type} (ttl : Nat) (L : Ledger)
    (scope key payload : String) (exec : σ → σ × String) (s : σ) (t₁ t₂ : Nat)
    (hfresh : (L.filter (recordLive t₁)).find? (recordMatches scope key) = none)
    (h₂ : t₂ ≤ t₁ + ttl) :
    (checkOrRecord ttl L scope key payload exec s t₁).executed = true
    ∧ (checkOrRecord ttl
        (checkOrRecord ttl L scope key payload exec s t₁).ledger scope key payload exec
        (checkOrRecord ttl L scope key payload exec s t₁).state t₂).executed = false
    ∧ (checkOrRecord ttl
        (checkOrRecord ttl L scope key payload exec s t₁).ledger scope key payload exec
        (checkOrRecord ttl L scope key payload exec s t₁).state t₂).state =
      (checkOrRecord ttl L scope key payload exec s t₁).state
    ∧ (checkOrRecord ttl
        (checkOrRecord ttl L scope key payload exec s t₁).ledger scope key payload exec
        (checkOrRecord ttl L scope key payload exec s t₁).state t₂).result =
      (checkOrRecord ttl L scope key payload exec s t₁).result := by
  have hfirst : checkOrRecord ttl L scope key payload exec s t₁ =
      ⟨.ok (exec s).2,
        L.filter (recordLive t₁) ++
          [(⟨scope, key, payload, (exec s).2, t₁ + ttl⟩ : IdempotencyRecord)],
        (exec s).1, true⟩ := checkOrRecord_fresh hfresh
  have hrecLive :
      recordLive t₂ (⟨scope, key, payload, (exec s).2, t₁ + ttl⟩ : IdempotencyRecord) = true := by
    simpa [recordLive] using h₂
  have hnomatch :
      ((L.filter (recordLive t₁)).filter (recordLive t₂)).find? (recordMatches scope key) = none :=
    find?_filter_none_of_none hfresh
  have hfilter :
      ((L.filter (recordLive t₁) ++
          [(⟨scope, key, payload, (exec s).2, t₁ + ttl⟩ : IdempotencyRecord)]).filter
          (recordLive t₂)) =
        (L.filter (recordLive t₁)).filter (recordLive t₂) ++
          [(⟨scope, key, payload, (exec s).2, t₁ + ttl⟩ : IdempotencyRecord)] := by
    rw [List.filter_append]
    simp [hrecLive]
  have hfind :
      ((L.filter (recordLive t₁) ++
          [(⟨scope, key, payload, (exec s).2, t₁ + ttl⟩ : IdempotencyRecord)]).filter
          (recordLive t₂)).find? (recordMatches scope key) =
        some (⟨scope, key, payload, (exec s).2, t₁ + ttl⟩ : IdempotencyRecord) := by
    rw [hfilter, find?_append_of_none hnomatch]
    simp [List.find?, recordMatches]
  have hsecond :
      checkOrRecord ttl
          (checkOrRecord ttl L scope key payload exec s t₁).ledger scope key payload exec
          (checkOrRecord ttl L scope key payload exec s t₁).state t₂ =
        ⟨.ok (exec s).2,
          ((L.filter (recordLive t₁) ++
              [(⟨scope, key, payload, (exec s).2, t₁ + ttl⟩ : IdempotencyRecord)]).filter
            (recordLive t₂)),
          (exec s).1, false⟩ := by
    rw [hfirst]
    exact checkOrRecord_replay hfind (by simp)
  exact ⟨by rw [hfirst], by rw [hsecond], by rw [hsecond, hfirst], by rw [hsecond, hfirst]⟩

/-- Witness for C2 at a concrete input: an empty ledger, a counting effect,
both calls at time 0 with TTL 10 — the effect runs once, the replay leaves the
domain state alone, and both responses coincide. -/
theorem C2_idempotent_replay_witness :
    (checkOrRecord (σ := Nat) 10 [] "orders" "k1" "p" (fun n => (n + 1, "resp")) 0 0).executed = true
    ∧ (checkOrRecord (σ := Nat) 10
        (checkOrRecord (σ := Nat) 10 [] "orders" "k1" "p" (fun n => (n + 1, "resp")) 0 0).ledger
        "orders" "k1" "p" (fun n => (n + 1, "resp"))
        (checkOrRecord (σ := Nat) 10 [] "orders" "k1" "p" (fun n => (n + 1, "resp")) 0 0).state
        0).executed = false
    ∧ (checkOrRecord (σ := Nat) 10
        (checkOrRecord (σ := Nat) 10 [] "orders" "k1" "p" (fun n => (n + 1, "resp")) 0 0).ledger
        "orders" "k1" "p" (fun n => (n + 1, "resp"))
        (checkOrRecord (σ := Nat) 10 [] "orders" "k1" "p" (fun n => (n + 1, "resp")) 0 0).state
        0).state =
      (checkOrRecord (σ := Nat) 10 [] "orders" "k1" "p" (fun n => (n + 1, "resp")) 0 0).state
    ∧ (checkOrRecord (σ := Nat) 10
        (checkOrRecord (σ := Nat) 10 [] "orders" "k1" "p" (fun n => (n + 1, "resp")) 0 0).ledger
        "orders" "k1" "p" (fun n => (n + 1, "resp"))
        (checkOrRecord (σ := Nat) 10 [] "orders" "k1" "p" (fun n => (n + 1, "resp")) 0 0).state
        0).result =
      (checkOrRecord (σ := Nat) 10 [] "orders" "k1" "p" (fun n => (n + 1, "resp")) 0 0).result :=
  C2_idempotent_replay (σ := Nat) 10 [] "orders" "k1" "p"
    (fun n => (n + 1, "resp")) 0 0 0 (by decide) (by decide)

/-- Claim C3: a second `checkOrRecord` under a (scope, key) that already holds
a live record, with a payload whose hash differs from the recorded one, fails
with `IdempotencyKeyConflict`, leaves the ledger (hence the originally
persisted response) unchanged, and does not execute the mutation. -/
theorem C3_conflict {σ : Type} (ttl : Nat) (L : Ledger) (scope key payload : String)
    (exec : σ → σ × String) (s : σ) (now : Nat) (r : IdempotencyRecord)
    (hfound : (L.filter (recordLive now)).find? (recordMatches scope key) = some r)
    (hdiff : (r.payloadHash == payload) = false) :
    checkOrRecord ttl L scope key payload exec s now =
      ⟨.error .IdempotencyKeyConflict, L, s, false⟩ :=
  checkOrRecord_conflict hfound hdiff

/-- Witness for C3 at a concrete input: a ledger holding a live record for
("orders", "k1") with payload hash "p"; retrying with payload "q" conflicts and
leaves the ledger as it was. -/
theorem C3_conflict_witness :
    checkOrRecord (σ := Nat) 10 [⟨"orders", "k1", "p", "resp", 10⟩] "orders" "k1" "q"
        (fun n => (n + 1, "other")) 0 0 =
      ⟨.error .IdempotencyKeyConflict, [⟨"orders", "k1", "p", "resp", 10⟩], 0, false⟩ :=
  C3_conflict (σ := Nat) 10 [⟨"orders", "k1", "p", "resp", 10⟩] "orders" "k1" "q"
    (fun n => (n + 1, "other")) 0 0 ⟨"orders", "k1", "p", "resp", 10⟩ (by decide) (by decide)

/-! ## Dispatch engine (spec §4.2, docs/api.md "Dispatch run") -/

structure GeoPoint where
  lat : Rat
  lng : Rat
deriving DecidableEq

/-- An order in a dispatchable status, as seen by one dispatch run. -/
structure DispatchOrder where
  id : String
  createdAt : Nat
  payloadWeight : Rat
  pickup : GeoPoint
deriving DecidableEq

/-- Modelled from the spec: a transient per-run view of one vehicle computed
from externally supplied telemetry (§3 `VehicleReadiness`); `serviceArea` is
the vehicle's configured service-area membership test. -/
structure VehicleReadiness where
  vehicleId : String
  position : GeoPoint
  batteryFraction : Rat
  armed : Bool
  available : Bool
  freshness : Nat
  maxPayload : Rat
  serviceArea : GeoPoint → Bool

structure DispatchConfig where
  minimumBatteryThreshold : Rat
  stalenessLimit : Nat
  distanceWeight : Rat
  batteryWeight : Rat

/-- Modelled from the spec: the candidate filter of §4.2 — a vehicle is a
candidate only if `armed=false or available`, battery fraction at or above the
minimum threshold (default 0.30), telemetry fresh enough, payload within the
vehicle maximum, and the pickup point inside the service area (the backend
dispatch module is not in the sources). -/
def eligible (cfg : DispatchConfig) (o : DispatchOrder) (v : VehicleReadiness) : Bool :=
  (!v.armed || v.available)
    && decide (cfg.minimumBatteryThreshold ≤ v.batteryFraction)
    && decide (v.freshness ≤ cfg.stalenessLimit)
    && decide (o.payloadWeight ≤ v.maxPayload)
    && v.serviceArea o.pickup

/-- Modelled from the spec: `score = distance_weight × normalized_distance −
battery_weight × battery_fraction`, lower is better. -/
def score (cfg : DispatchConfig) (normDist : GeoPoint → GeoPoint → Rat)
    (o : DispatchOrder) (v : VehicleReadiness) : Rat :=
  cfg.distanceWeight * normDist v.position o.pickup - cfg.batteryWeight * v.batteryFraction

/-- `a` wins over `b` when its score is strictly lower, or on a tied score when
its vehicle identifier is lexicographically smaller (§4.2 tie-break). -/
def betterCandidate (cfg : DispatchConfig) (normDist : GeoPoint → GeoPoint → Rat)
    (o : DispatchOrder) (a b : VehicleReadiness) : Bool :=
  decide (score cfg normDist o a < score cfg normDist o b)
    || (decide (score cfg normDist o a = score cfg normDist o b)
        && decide (a.vehicleId < b.vehicleId))

/-- The best-scoring candidate of a list (`none` on the empty list). -/
def bestCandidate (cfg : DispatchConfig) (normDist : GeoPoint → GeoPoint → Rat)
    (o : DispatchOrder) : List VehicleReadiness → Option VehicleReadiness
  | [] => none
  | v :: vs =>
    match bestCandidate cfg normDist o vs with
    | none => some v
    | some w => if betterCandidate cfg normDist o v w then some v else some w

/-- Modelled from the spec: the assignment loop of §4.2 — orders processed in
order, at most one order per vehicle per run (a claimed vehicle is removed from
the candidate pool), an order with no eligible vehicle left untouched, and an
optional `max_assignments` cap decremented per assignment. -/
def assignOrders (cfg : DispatchConfig) (normDist : GeoPoint → GeoPoint → Rat) :
    List DispatchOrder → List VehicleReadiness → Option Nat →
      List (DispatchOrder × VehicleReadiness)
  | [], _, _ => []
  | o :: os, pool, cap =>
    if cap = some 0 then []
    else
      match bestCandidate cfg normDist o (pool.filter (eligible cfg o)) with
      | none => assignOrders cfg normDist os pool cap
      | some v =>
        (o, v) ::
          assignOrders cfg normDist os
            (pool.filter (fun w => !(w.vehicleId == v.vehicleId)))
            (cap.map (fun n => n - 1))

/-- Modelled from the spec: one dispatch run — orders processed oldest
`created_at` first over a fresh telemetry snapshot. -/
def dispatchRun (cfg : DispatchConfig) (normDist : GeoPoint → GeoPoint → Rat)
    (orders : List DispatchOrder) (pool : List VehicleReadiness) (cap : Option Nat) :
    List (DispatchOrder × VehicleReadiness) :=
  assignOrders cfg normDist
    (List.insertionSort (fun a b => a.createdAt ≤ b.createdAt) orders) pool cap

lemma bestCandidate_mem {cfg : DispatchConfig} {normDist : GeoPoint → GeoPoint → Rat}
    {o : DispatchOrder} {v : VehicleReadiness} :
    ∀ {l : List VehicleReadiness}, bestCandidate cfg normDist o l = some v → v ∈ l := by
  intro l
  induction l with
  | nil => intro h; simp [bestCandidate] at h
  | cons a l ih =>
    intro h
    rw [bestCandidate] at h
    cases hrec : bestCandidate cfg normDist o l with
    | none =>
      rw [hrec] at h
      simp at h
      simp [h]
    | some w =>
      rw [hrec] at h
      by_cases hb : betterCandidate cfg normDist o a w
      · simp [hb] at h
        simp [h]
      · simp [hb] at h
        exact List.mem_cons_of_mem a (ih (h ▸ hrec))

lemma assignOrders_vehicle_mem {cfg : DispatchConfig} {normDist : GeoPoint → GeoPoint → Rat} :
    ∀ (os : List DispatchOrder) (pool : List VehicleReadiness) (cap : Option Nat)
      (o : DispatchOrder) (v : VehicleReadiness),
      (o, v) ∈ assignOrders cfg normDist os pool cap → v ∈ pool ∧ eligible cfg o v = true := by
  intro os
  induction os with
  | nil => intro pool cap o v h; simp [assignOrders] at h
  | cons a os ih =>
    intro pool cap o v h
    rw [assignOrders] at h
    by_cases hcap : cap = some 0
    · simp [hcap] at h
    · rw [if_neg hcap] at h
      cases hbest : bestCandidate cfg normDist a (pool.filter (eligible cfg a)) with
      | none =>
        rw [hbest] at h
        exact ih pool cap o v h
      | some w =>
        rw [hbest] at h
        rcases List.mem_cons.mp h with heq | htail
        · obtain ⟨ho, hv⟩ := Prod.mk.injEq .. ▸ heq
          have hmem := bestCandidate_mem hbest
          have := List.mem_filter.mp hmem
          subst ho hv
          exact ⟨this.1, this.2⟩
        · have := ih _ _ _ _ htail
          exact ⟨(List.mem_filter.mp this.1).1, this.2⟩

lemma assignOrders_vehicles_nodup {cfg : DispatchConfig} {normDist : GeoPoint → GeoPoint → Rat} :
    ∀ (os : List DispatchOrder) (pool : List VehicleReadiness) (cap : Option Nat),
      ((assignOrders cfg normDist os pool cap).map (fun a => a.2.vehicleId)).Nodup := by
  intro os
  induction os with
  | nil => intro pool cap; simp [assignOrders]
  | cons a os ih =>
    intro pool cap
    rw [assignOrders]
    by_cases hcap : cap = some 0
    · simp [hcap]
    · rw [if_neg hcap]
      cases hbest : bestCandidate cfg normDist a (pool.filter (eligible cfg a)) with
      | none => exact ih pool cap
      | some v =>
        simp only [List.map_cons, List.nodup_cons]
        constructor
        · intro hmem
          rcases List.mem_map.mp hmem with ⟨⟨o₂, w⟩, hw, hid⟩
          have hpool := (assignOrders_vehicle_mem _ _ _ _ _ hw).1
          have hfilter := (List.mem_filter.mp hpool).2
          rw [hid] at hfilter
          simp at hfilter
        · exact ih _ _

/-- Claim C4: a dispatch run never assigns the same vehicle to two orders in
one run (the assigned vehicle identifiers are pairwise distinct), and every
assignment satisfies the battery threshold and payload-capacity filters. -/
theorem C4_dispatch_run_safety (cfg : DispatchConfig) (normDist : GeoPoint → GeoPoint → Rat)
    (orders : List DispatchOrder) (pool : List VehicleReadiness) (cap : Option Nat) :
    ((dispatchRun cfg normDist orders pool cap).map (fun a => a.2.vehicleId)).Nodup
    ∧ ∀ o v, (o, v) ∈ dispatchRun cfg normDist orders pool cap →
        cfg.minimumBatteryThreshold ≤ v.batteryFraction ∧ o.payloadWeight ≤ v.maxPayload := by
  constructor
  · exact assignOrders_vehicles_nodup _ _ _
  · intro o v h
    have helig := (assignOrders_vehicle_mem _ _ _ _ _ h).2
    rw [eligible] at helig
    simp only [Bool.and_eq_true, decide_eq_true_eq] at helig
    exact ⟨helig.1.1.1.2, helig.1.2⟩

def cfgW : DispatchConfig := ⟨0, 0, 0, 0⟩

def orderW : DispatchOrder := ⟨"o1", 0, 0, ⟨0, 0⟩⟩

def vehicleW : VehicleReadiness := ⟨"v1", ⟨0, 0⟩, 1, false, true, 0, 1, fun _ => true⟩

/-- Witness for C4 at a concrete input: a run with one order and one eligible
vehicle assigns it, and C4 yields the battery and payload bounds there. -/
theorem C4_dispatch_run_safety_witness :
    cfgW.minimumBatteryThreshold ≤ vehicleW.batteryFraction
    ∧ orderW.payloadWeight ≤ vehicleW.maxPayload :=
  (C4_dispatch_run_safety cfgW (fun _ _ => 0) [orderW] [vehicleW] none).2 orderW vehicleW
    (by
      have h : dispatchRun cfgW (fun _ _ => 0) [orderW] [vehicleW] none =
          [(orderW, vehicleW)] := rfl
      rw [h]
      exact List.mem_singleton_self _)

/-! ## Rate limiter (spec §4.4, docs/api.md "Rate limiting") -/

/-- Modelled from the spec: a `RateWindow` keyed by (client identity, route
class) stores a count and a window deadline (§3). -/
structure RateWindow where
  count : Nat
  deadline : Nat
deriving DecidableEq

structure RateConfig where
  limit : Nat
  window : Nat
deriving DecidableEq

inductive RateDecision where
  | allowed (remaining : Nat)
  | rateLimited (retryAt : Nat)
deriving DecidableEq

/-- Modelled from the spec: `allow(clientIdentity, routeClass)` of §4.4 — if
the current window has expired (or none exists), reset count and deadline;
increment the count; fail with `RateLimited` reporting the window deadline as
the retry-after instant when the count exceeds the limit, otherwise permit and
report the remaining budget (the backend limiter module is not in the
sources). -/
def allow (cfg : RateConfig) (st : Option RateWindow) (now : Nat) :
    RateDecision × RateWindow :=
  let w :=
    match st with
    | none => RateWindow.mk 0 (now + cfg.window)
    | some w => if w.deadline ≤ now then RateWindow.mk 0 (now + cfg.window) else w
  let w₂ := RateWindow.mk (w.count + 1) w.deadline
  if cfg.limit < w₂.count then
    (.rateLimited w₂.deadline, w₂)
  else
    (.allowed (cfg.limit - w₂.count), w₂)

/-- The window state after `k` successive `allow` calls at time `t₀`, starting
with no window. -/
def callSeq (cfg : RateConfig) (t₀ : Nat) : Nat → Option RateWindow
  | 0 => none
  | k + 1 => some (allow cfg (callSeq cfg t₀ k) t₀).2

lemma allow_current (cfg : RateConfig) (c D now : Nat) (hcur : ¬ D ≤ now) :
    allow cfg (some ⟨c, D⟩) now =
      if cfg.limit < c + 1 then (.rateLimited D, ⟨c + 1, D⟩)
      else (.allowed (cfg.limit - (c + 1)), ⟨c + 1, D⟩) := by
  simp [allow, hcur]

lemma allow_expired (cfg : RateConfig) (c D now : Nat) (hexp : D ≤ now) :
    allow cfg (some ⟨c, D⟩) now =
      if cfg.limit < 1 then
        (.rateLimited (now + cfg.window), ⟨1, now + cfg.window⟩)
      else (.allowed (cfg.limit - 1), ⟨1, now + cfg.window⟩) := by
  simp [allow, hexp]

lemma allow_none (cfg : RateConfig) (now : Nat) :
    allow cfg none now =
      if cfg.limit < 1 then
        (.rateLimited (now + cfg.window), ⟨1, now + cfg.window⟩)
      else (.allowed (cfg.limit - 1), ⟨1, now + cfg.window⟩) := by
  simp [allow]

lemma callSeq_state (cfg : RateConfig) (t₀ : Nat) (hW : 0 < cfg.window) :
    ∀ k, 0 < k → callSeq cfg t₀ k = some ⟨k, t₀ + cfg.window⟩ := by
  intro k
  induction k with
  | zero => omega
  | succ n ih =>
    intro _
    cases Nat.eq_zero_or_pos n with
    | inl h0 =>
      subst h0
      rw [callSeq, callSeq, allow_none]
      split <;> rfl
    | inr hpos =>
      rw [callSeq, ih hpos, allow_current cfg n (t₀ + cfg.window) t₀ (by omega)]
      split <;> rfl

/-- Claim C5: with limit `N` and window length `W`, starting fresh at `t₀`:
each of the first `N` calls at `t₀` is allowed with the stated remaining
budget; the `(N+1)`-th call at any instant `t` strictly inside the window is
rejected with `RateLimited` reporting the window deadline `t₀ + W` as the
retry instant; and a call made at the deadline itself (immediately after the
window elapses) is allowed with the counter reset to 1. -/
theorem C5_rate_limit_window (cfg : RateConfig) (t₀ t : Nat)
    (hW : 0 < cfg.window) (hN : 0 < cfg.limit) (ht : t < t₀ + cfg.window) :
    (∀ k, k < cfg.limit →
      (allow cfg (callSeq cfg t₀ k) t₀).1 = .allowed (cfg.limit - (k + 1)))
    ∧ (allow cfg (callSeq cfg t₀ cfg.limit) t).1 = .rateLimited (t₀ + cfg.window)
    ∧ (allow cfg (callSeq cfg t₀ cfg.limit) (t₀ + cfg.window)).2.count = 1
    ∧ (allow cfg (callSeq cfg t₀ cfg.limit) (t₀ + cfg.window)).1 =
        .allowed (cfg.limit - 1) := by
  have hlive : ¬ t₀ + cfg.window ≤ t := by omega
  refine ⟨?_, ?_, ?_, ?_⟩
  · intro k hk
    cases Nat.eq_zero_or_pos k with
    | inl h0 =>
      subst h0
      rw [callSeq, allow_none, if_neg (by omega)]
    | inr hpos =>
      rw [callSeq_state cfg t₀ hW k hpos,
        allow_current cfg k (t₀ + cfg.window) t₀ (by omega), if_neg (by omega)]
  · rw [callSeq_state cfg t₀ hW cfg.limit hN,
      allow_current cfg cfg.limit (t₀ + cfg.window) t hlive, if_pos (by omega)]
  · rw [callSeq_state cfg t₀ hW cfg.limit hN,
      allow_expired cfg cfg.limit (t₀ + cfg.window) (t₀ + cfg.window) (by omega)]
    split <;> rfl
  · rw [callSeq_state cfg t₀ hW cfg.limit hN,
      allow_expired cfg cfg.limit (t₀ + cfg.window) (t₀ + cfg.window) (by omega),
      if_neg (by omega)]

/-- Witness for C5 at a concrete input: limit 2, window 10, calls at time 0 and
the over-limit call at time 5 — the third call is rejected until instant 10 and
a call at 10 resets the counter. -/
theorem C5_rate_limit_window_witness :
    (∀ k, k < 2 →
      (allow ⟨2, 10⟩ (callSeq ⟨2, 10⟩ 0 k) 0).1 = .allowed (2 - (k + 1)))
    ∧ (allow ⟨2, 10⟩ (callSeq ⟨2, 10⟩ 0 2) 5).1 = .rateLimited 10
    ∧ (allow ⟨2, 10⟩ (callSeq ⟨2, 10⟩ 0 2) 10).2.count = 1
    ∧ (allow ⟨2, 10⟩ (callSeq ⟨2, 10⟩ 0 2) 10).1 = .allowed 1 := by
  have h := C5_rate_limit_window ⟨2, 10⟩ 0 5 (by decide) (by decide) (by decide)
  simpa using h

/-! ## Public tracking view (spec §6, docs/api.md, web/src/api schema) -/

/-- Order record on the authenticated surface, with the merchant/customer
contact fields that docs/api.md says are redacted from public tracking. -/
structure FullOrder where
  id : String
  public_tracking_id : String
  merchant_id : Option String
  customer_name : Option String
  customer_phone : Option String
  status : String
deriving DecidableEq

/-- Proof-of-delivery record, following `PodResponse` of the generated OpenAPI
schema (web/src/api/schema-types.ts): method plus the sensitive fields the
public surface must never expose.  Timestamps are modelled as naturals. -/
structure PodRecord where
  method : String
  otp_code : Option String
  operator_name : Option String
  photo_url : Option String
  created_at : Nat
deriving DecidableEq

/-- A delivery event as stored for an order (type, message, creation time). -/
structure EventRecord where
  type : String
  message : String
  created_at : Nat
deriving DecidableEq

/-- `TrackingPodSummary` of the generated OpenAPI schema
(web/src/api/schema-types.ts): only `method` and `created_at`. -/
structure TrackingPodSummary where
  method : String
  created_at : Nat
deriving DecidableEq

/-- `TrackingViewResponse` of the generated OpenAPI schema
(web/src/api/schema-types.ts). -/
structure TrackingViewResponse where
  order_id : String
  public_tracking_id : String
  status : String
  milestones : Option (List String)
  pod_summary : Option TrackingPodSummary
deriving DecidableEq

instance : IsTotal EventRecord (fun a b => a.created_at ≤ b.created_at) :=
  ⟨fun a b => Nat.le_total a.created_at b.created_at⟩

instance : IsTrans EventRecord (fun a b => a.created_at ≤ b.created_at) :=
  ⟨fun _ _ _ hab hbc => Nat.le_trans hab hbc⟩

/-- Modelled from the spec: the deliberately redacted public tracking view —
`order_id`, `public_tracking_id`, `status`, the milestone list (timeline event
types in chronological order) and, when a proof of delivery exists, a
`pod_summary` with only `method` and `created_at` (spec §6; docs/api.md
"Public tracking response is sanitized to ..."; the backend tracking route is
not in the sources). -/
def toTrackingView (o : FullOrder) (events : List EventRecord) (pod : Option PodRecord) :
    TrackingViewResponse :=
  { order_id := o.id
    public_tracking_id := o.public_tracking_id
    status := o.status
    milestones :=
      some ((List.insertionSort (fun a b => a.created_at ≤ b.created_at) events).map
        (fun e => e.type))
    pod_summary := pod.map (fun p => ⟨p.method, p.created_at⟩) }

/-- Claim C6: the public tracking view depends only on the order identifiers,
the status, the event timeline and the POD method/timestamp — two inputs that
differ arbitrarily in merchant/customer contact fields and in the POD
photo/OTP/operator fields produce identical views, so raw contact or photo
data never reach the public surface; the milestone list is the event types in
chronological (non-decreasing `created_at`) order; and the POD summary carries
only method and timestamp. -/
theorem C6_tracking_view_redaction (o o' : FullOrder) (events : List EventRecord)
    (pod pod' : Option PodRecord)
    (hid : o.id = o'.id) (htrk : o.public_tracking_id = o'.public_tracking_id)
    (hstat : o.status = o'.status)
    (hpod : pod.map (fun p => (p.method, p.created_at)) =
      pod'.map (fun p => (p.method, p.created_at))) :
    toTrackingView o events pod = toTrackingView o' events pod'
    ∧ (∃ sorted : List EventRecord, sorted.Perm events
        ∧ List.Pairwise (fun a b => a.created_at ≤ b.created_at) sorted
        ∧ (toTrackingView o events pod).milestones = some (sorted.map (fun e => e.type)))
    ∧ (toTrackingView o events pod).pod_summary =
        pod.map (fun p => ⟨p.method, p.created_at⟩) := by
  refine ⟨?_, ?_, rfl⟩
  · have hsum : pod.map (fun p => (⟨p.method, p.created_at⟩ : TrackingPodSummary)) =
        pod'.map (fun p => (⟨p.method, p.created_at⟩ : TrackingPodSummary)) := by
      cases pod with
      | none => cases pod' with
        | none => rfl
        | some q =>
          rw [Option.map_none', Option.map_some'] at hpod
          exact Option.noConfusion hpod
      | some p => cases pod' with
        | none =>
          rw [Option.map_none', Option.map_some'] at hpod
          exact Option.noConfusion hpod
        | some q =>
          rw [Option.map_some', Option.map_some'] at hpod
          have h := Option.some.inj hpod
          have hm := congrArg Prod.fst h
          have hc := congrArg Prod.snd h
          simp only at hm hc
          simp [hm, hc]
    simp [toTrackingView, hid, htrk, hstat, hsum]
  · refine ⟨List.insertionSort (fun a b => a.created_at ≤ b.created_at) events,
      List.perm_insertionSort _ _, ?_, rfl⟩
    exact List.sorted_insertionSort (fun a b => a.created_at ≤ b.created_at) events

/-- Witness for C6 at a concrete input: two inputs that differ only in
customer name, phone, merchant id and POD photo/OTP/operator produce the same
public view. -/
theorem C6_tracking_view_redaction_witness :
    toTrackingView ⟨"ord1", "trk1", some "m1", some "Alice", some "+100", "DELIVERED"⟩
        [⟨"CREATED", "created", 1⟩]
        (some ⟨"PHOTO", some "1234", some "op", some "https://x/p.jpg", 9⟩) =
      toTrackingView ⟨"ord1", "trk1", none, none, none, "DELIVERED"⟩
        [⟨"CREATED", "created", 1⟩]
        (some ⟨"PHOTO", none, none, none, 9⟩) :=
  (C6_tracking_view_redaction
    ⟨"ord1", "trk1", some "m1", some "Alice", some "+100", "DELIVERED"⟩
    ⟨"ord1", "trk1", none, none, none, "DELIVERED"⟩
    [⟨"CREATED", "created", 1⟩]
    (some ⟨"PHOTO", some "1234", some "op", some "https://x/p.jpg", 9⟩)
    (some ⟨"PHOTO", none, none, none, 9⟩) rfl rfl rfl rfl).1

/-! ## Order-detail timeline ordering (web/src/pages/OrderDetailPage.tsx) -/

/-- An event item as fetched by `OrderDetailPage`; `created_at` is modelled as
the epoch-milliseconds value `new Date(e.created_at).getTime()` used by the
comparator. -/
structure EventItem where
  id : String
  type : String
  message : String
  created_at : Nat
deriving DecidableEq

instance : IsTotal EventItem (fun a b => a.created_at ≤ b.created_at) :=
  ⟨fun a b => Nat.le_total a.created_at b.created_at⟩

instance : IsTrans EventItem (fun a b => a.created_at ≤ b.created_at) :=
  ⟨fun _ _ _ hab hbc => Nat.le_trans hab hbc⟩

/-- Embeds the timeline ordering of `fetchAll` in OrderDetailPage.tsx:
`[...(eventsBody.items || [])].sort((a, b) =>
  new Date(a.created_at).getTime() - new Date(b.created_at).getTime())`,
a comparison sort on ascending `created_at` over a copy of the fetched
items. -/
def sortEventsByCreatedAt (items : List EventItem) : List EventItem :=
  List.insertionSort (fun a b => a.created_at ≤ b.created_at) items

/-- Claim C7: for any fetched list of delivery events, in any arrival order,
the exposed timeline is a permutation of exactly the fetched items arranged in
non-decreasing `created_at` order. -/
theorem C7_timeline_sorted (items : List EventItem) :
    (sortEventsByCreatedAt items).Perm items
    ∧ List.Pairwise (fun a b => a.created_at ≤ b.created_at)
        (sortEventsByCreatedAt items) :=
  ⟨List.perm_insertionSort _ items,
    by exact List.sorted_insertionSort (fun a b => a.created_at ≤ b.created_at) items⟩

/-! ## UI auth token store (web/src/auth.ts) -/

/-- `UserClaims` from web/src/auth.ts.  `exp` is the JWT expiry in epoch
seconds. -/
structure UserClaims where
  sub : Option String := none
  role : Option String := none
  tenant : Option String := none
  tenant_id : Option String := none
  merchant_id : Option String := none
  exp : Option Nat := none
deriving DecidableEq

/-- A JWT as seen by the UI token store.  The base64url decoding and JSON
parsing done by `decodeJwtClaims` in auth.ts are abstracted to their result:
`claims` is `none` exactly when the token fails to decode. -/
structure Token where
  claims : Option UserClaims
deriving DecidableEq

def decodeJwtClaims (t : Token) : Option UserClaims := t.claims

/-- Embeds `isExpired` (auth.ts lines 37-42): `!claims?.exp` — null claims, a
missing `exp`, or a zero (falsy) `exp` — means not expired; otherwise expired
exactly when `Date.now() >= exp * 1000`. -/
def isExpired (claims : Option UserClaims) (nowMs : Nat) : Bool :=
  match claims with
  | none => false
  | some c =>
    match c.exp with
    | none => false
    | some e => if e = 0 then false else decide (e * 1000 ≤ nowMs)

/-- The module-level state of auth.ts: the `inMemoryToken` variable and the
`sessionStorage` entry under `wingxtra_ui_jwt`. -/
structure AuthState where
  inMemoryToken : Option Token
  session : Option Token
deriving DecidableEq

/-- Embeds `clearToken` (auth.ts): nulls the in-memory token and removes the
sessionStorage entry. -/
def clearToken (_ : AuthState) : AuthState := ⟨none, none⟩

/-- Embeds `setToken` (auth.ts): stores the token in memory and in
sessionStorage. -/
def setToken (_ : AuthState) (t : Token) : AuthState := ⟨some t, some t⟩

/-- Embeds `loadTokenFromSession` (auth.ts lines 44-62): an in-memory token is
returned as is; otherwise the sessionStorage token is decoded, cleared and
rejected when expired, and cached in memory and returned when not. -/
def loadTokenFromSession (st : AuthState) (nowMs : Nat) : Option Token × AuthState :=
  match st.inMemoryToken with
  | some t => (some t, st)
  | none =>
    match st.session with
    | none => (none, st)
    | some t =>
      if isExpired (decodeJwtClaims t) nowMs then (none, clearToken st)
      else (some t, ⟨some t, st.session⟩)

/-- Embeds `getToken` (auth.ts): delegates to `loadTokenFromSession`. -/
def getToken (st : AuthState) (nowMs : Nat) : Option Token × AuthState :=
  loadTokenFromSession st nowMs

/-- Embeds `getCurrentUserClaims` (auth.ts lines 78-91): decodes the current
token, clearing it and returning null when the decoded claims are expired. -/
def getCurrentUserClaims (st : AuthState) (nowMs : Nat) : Option UserClaims × AuthState :=
  match getToken st nowMs with
  | (none, st₁) => (none, st₁)
  | (some t, st₁) =>
    if isExpired (decodeJwtClaims t) nowMs then (none, clearToken st₁)
    else (decodeJwtClaims t, st₁)

def expiredToken : Token := ⟨some { exp := some 1 }⟩

def expiredMemoryState : AuthState := ⟨some expiredToken, some expiredToken⟩

/-- Counterexample to C8 as stated: with an expired token already cached in
memory (`exp = 1`, current time 2000 ms ≥ exp × 1000), `getToken` returns that
token even though its `exp` has passed — the in-memory fast path of
`loadTokenFromSession` skips the expiry check. -/
theorem C8_getToken_returns_expired_counterexample :
    (getToken expiredMemoryState 2000).1 = some expiredToken
    ∧ isExpired (decodeJwtClaims expiredToken) 2000 = true := by
  decide

/-- Claim C8 (amended): `getCurrentUserClaims` never returns claims whose
decoded `exp` has passed, and on encountering an expired in-memory token
clears it from both in-memory state and sessionStorage; `getToken` applies the
expiry check only when no in-memory token exists (loading from
sessionStorage), there never returning an expired token and clearing an
expired session token from both stores; a token without an `exp` claim is
never treated as expired. -/
theorem C8_token_store_expiry (st : AuthState) (nowMs : Nat) :
    (∀ c, (getCurrentUserClaims st nowMs).1 = some c → isExpired (some c) nowMs = false)
    ∧ (∀ t, st.inMemoryToken = some t → isExpired (decodeJwtClaims t) nowMs = true →
        getCurrentUserClaims st nowMs = (none, ⟨none, none⟩))
    ∧ (st.inMemoryToken = none → ∀ t, (getToken st nowMs).1 = some t →
        isExpired (decodeJwtClaims t) nowMs = false)
    ∧ (st.inMemoryToken = none → ∀ t, st.session = some t →
        isExpired (decodeJwtClaims t) nowMs = true →
        getToken st nowMs = (none, ⟨none, none⟩))
    ∧ (∀ c : UserClaims, c.exp = none → isExpired (some c) nowMs = false) := by
  refine ⟨?_, ?_, ?_, ?_, ?_⟩
  · intro c hc
    unfold getCurrentUserClaims at hc
    cases hg : getToken st nowMs with
    | mk tok st₁ =>
      rw [hg] at hc
      cases tok with
      | none => simp at hc
      | some t =>
        by_cases hexp : isExpired (decodeJwtClaims t) nowMs = true
        · simp [hexp] at hc
        · have hexp' : isExpired (decodeJwtClaims t) nowMs = false :=
            Bool.not_eq_true _ ▸ (by simpa using hexp)
          simp only [hexp', Bool.false_eq_true, if_false] at hc
          rw [← hc]
          exact hexp'
  · intro t hmem hexp
    unfold getCurrentUserClaims getToken loadTokenFromSession
    rw [hmem]
    simp [hexp, clearToken]
  · intro hnone t hget
    unfold getToken loadTokenFromSession at hget
    rw [hnone] at hget
    cases hs : st.session with
    | none => rw [hs] at hget; simp at hget
    | some t₂ =>
      rw [hs] at hget
      by_cases hexp : isExpired (decodeJwtClaims t₂) nowMs = true
      · simp [hexp] at hget
      · have hexp' : isExpired (decodeJwtClaims t₂) nowMs = false := by
          simpa using hexp
        simp only [hexp', Bool.false_eq_true, if_false] at hget
        have ht : t₂ = t := by simpa using hget
        rw [← ht]
        exact hexp'
  · intro hnone t hs hexp
    unfold getToken loadTokenFromSession
    rw [hnone, hs]
    simp [hexp, clearToken]
  · intro c hnoexp
    simp [isExpired, hnoexp]

/-- Witness for C8 (amended) at a concrete input: for the expired in-memory
token at time 2000 ms, `getCurrentUserClaims` returns no claims and clears
both stores. -/
theorem C8_token_store_expiry_witness :
    getCurrentUserClaims expiredMemoryState 2000 = (none, ⟨none, none⟩) :=
  (C8_token_store_expiry expiredMemoryState 2000).2.1 expiredToken (by decide) (by decide)

/-! ## apiFetch response handling (web/src/api.ts) -/

structure HttpResponse where
  status : Nat
deriving DecidableEq

/-- `Response.ok`: status in the inclusive range 200-299. -/
def responseOk (r : HttpResponse) : Bool :=
  decide (200 ≤ r.status) && decide (r.status ≤ 299)

/-- `apiFetch` either throws `ApiAuthError` or returns the response. -/
inductive ApiFetchOutcome where
  | authError
  | success (r : HttpResponse)
deriving DecidableEq

/-- The observable side effects of one `apiFetch` call: whether the
`wingxtra-auth-required` event was dispatched and whether a normalized
`emitApiError` event was emitted. -/
structure ApiEffects where
  authRequiredDispatched : Bool
  apiErrorEmitted : Bool
deriving DecidableEq

/-- Embeds `apiFetch` (web/src/api.ts lines 14-46) from the arrival of the
HTTP response onward: the Authorization-header lookup `getToken()` runs first
(it may load the session token into memory), then a 401 or 403 clears the
stored token, dispatches `wingxtra-auth-required` and throws `ApiAuthError`;
any other response is returned, with a normalized error event emitted when it
is not ok. -/
def apiFetch (st : AuthState) (nowMs : Nat) (r : HttpResponse) :
    ApiFetchOutcome × AuthState × ApiEffects :=
  if r.status = 401 ∨ r.status = 403 then
    (.authError, clearToken (getToken st nowMs).2, ⟨true, false⟩)
  else if !responseOk r then
    (.success r, (getToken st nowMs).2, ⟨false, true⟩)
  else
    (.success r, (getToken st nowMs).2, ⟨false, false⟩)

/-- Claim C9: a 401 or 403 response makes `apiFetch` clear the stored token,
dispatch the authentication-required signal and throw `ApiAuthError` instead
of returning the response; any other status is returned to the caller, with a
normalized error event emitted exactly when the status is not ok. -/
theorem C9_apiFetch_auth_handling (st : AuthState) (nowMs : Nat) (r : HttpResponse) :
    (r.status = 401 ∨ r.status = 403 →
      apiFetch st nowMs r = (.authError, ⟨none, none⟩, ⟨true, false⟩))
    ∧ (¬(r.status = 401 ∨ r.status = 403) →
        (apiFetch st nowMs r).1 = .success r
        ∧ (apiFetch st nowMs r).2.2 = ⟨false, !responseOk r⟩) := by
  constructor
  · intro hauth
    simp [apiFetch, hauth, clearToken]
  · intro hother
    unfold apiFetch
    rw [if_neg hother]
    by_cases hok : responseOk r = true <;> simp [hok]

/-- Witness for C9 at a concrete input: a 401 response throws and clears the
stored token; a 500 response is returned with an error event emitted. -/
theorem C9_apiFetch_auth_handling_witness :
    apiFetch ⟨some expiredToken, some expiredToken⟩ 0 ⟨401⟩ =
      (.authError, ⟨none, none⟩, ⟨true, false⟩)
    ∧ (apiFetch ⟨none, none⟩ 0 ⟨500⟩).1 = .success ⟨500⟩
    ∧ (apiFetch ⟨none, none⟩ 0 ⟨500⟩).2.2 = ⟨false, true⟩ := by
  refine ⟨(C9_apiFetch_auth_handling ⟨some expiredToken, some expiredToken⟩ 0 ⟨401⟩).1
    (Or.inl rfl), ?_, ?_⟩
  · exact ((C9_apiFetch_auth_handling ⟨none, none⟩ 0 ⟨500⟩).2 (by decide)).1
  · have h := ((C9_apiFetch_auth_handling ⟨none, none⟩ 0 ⟨500⟩).2 (by decide)).2
    simpa using h

/-! ## Tracking page rate-limit handling (web/src/pages/TrackingPage.tsx) -/

/-- Whitespace skipped by `Number.parseInt` before the sign and digits. -/
def isJsSpace (c : Char) : Bool :=
  (c == ' ') || (c == '\t') || (c == '\n') || (c == '\r') || (c == '\x0b') || (c == '\x0c')

def digitsVal (cs : List Char) : Nat :=
  cs.foldl (fun n c => n * 10 + (c.toNat - 48)) 0

def parseDigits (cs : List Char) : Option Nat :=
  if (cs.takeWhile (fun c => c.isDigit)).isEmpty then none
  else some (digitsVal (cs.takeWhile (fun c => c.isDigit)))

/-- `Number.parseInt(s, 10)` over exact integers: skip leading whitespace,
read an optional sign and the longest decimal-digit prefix; `none` stands for
`NaN` (no digits found). -/
def jsParseInt (s : String) : Option Int :=
  match s.data.dropWhile isJsSpace with
  | '-' :: rest => (parseDigits rest).map (fun n => -(n : Int))
  | '+' :: rest => (parseDigits rest).map (fun n => (n : Int))
  | cs => (parseDigits cs).map (fun n => (n : Int))

/-- Embeds the cooldown computation of the 429 branch in TrackingPage.tsx:
`Number.parseInt(response.headers.get("Retry-After") || "30", 10)` (a missing
or empty header falls back to the string "30") followed by
`Number.isFinite(retryAfter) ? Math.max(1, retryAfter) : 30`. -/
def trackingRetrySeconds (header : Option String) : Int :=
  match jsParseInt (match header with
    | none => "30"
    | some s => if s = "" then "30" else s) with
  | some n => max 1 n
  | none => 30

/-- The page state set by one run of `load` in TrackingPage.tsx, restricted to
the fields the claim observes. -/
structure TrackingPageState where
  data : Option TrackingViewResponse
  error : Option String
  retryAfterSeconds : Int
deriving DecidableEq

/-- Embeds `load` in TrackingPage.tsx from the arrival of the response
onward: `setData(null)` has run; a 429 sets the retry countdown and an error
and returns before any data is set; any other non-ok status sets an error;
an ok response stores the parsed body. -/
def trackingLoad (status : Nat) (retryAfterHeader : Option String)
    (body : TrackingViewResponse) : TrackingPageState :=
  if status = 429 then
    ⟨none, some "Tracking is temporarily rate limited. Please wait before trying again.",
      trackingRetrySeconds retryAfterHeader⟩
  else if !(decide (200 ≤ status) && decide (status ≤ 299)) then
    ⟨none, some ("Unable to load tracking (" ++ toString status ++ ")."), 0⟩
  else
    ⟨some body, none, 0⟩

/-- The retry cooldown as claim C10 words it: `max(1, the integer value of the
Retry-After header)` seconds, falling back to 30 seconds when the header is
missing or not parseable as a finite integer. -/
def claimedRetryCooldown (header : Option String) : Int :=
  match header with
  | none => 30
  | some s =>
    match jsParseInt s with
    | none => 30
    | some n => max 1 n

lemma trackingRetrySeconds_eq_claimed (header : Option String) :
    trackingRetrySeconds header = claimedRetryCooldown header := by
  cases header with
  | none => rfl
  | some s =>
    by_cases hs : s = ""
    · subst hs; rfl
    · show (match jsParseInt (if s = "" then "30" else s) with
          | some n => max 1 n
          | none => 30) =
        (match jsParseInt s with
          | none => 30
          | some n => max 1 n)
      rw [if_neg hs]
      cases jsParseInt s <;> rfl

/-- Claim C10: a public-tracking fetch answered with HTTP 429 renders no
tracking data and reports a retry cooldown of max(1, the integer value of the
Retry-After header) seconds, falling back to 30 seconds when the header is
missing or not parseable as a finite integer. -/
theorem C10_tracking_429_cooldown (header : Option String) (body : TrackingViewResponse) :
    (trackingLoad 429 header body).data = none
    ∧ (trackingLoad 429 header body).retryAfterSeconds = claimedRetryCooldown header
    ∧ (trackingLoad 429 header body).error =
        some "Tracking is temporarily rate limited. Please wait before trying again." := by
  refine ⟨?_, ?_, ?_⟩ <;>
    simp [trackingLoad, trackingRetrySeconds_eq_claimed]

end Wingxtra
